import Mathlib

/-!
# Confession relay bot — verification of the spec's claims against the source

Shallow embedding of the confession Telegram bot (`src/bot.ts`,
`src/services/db.ts`, `src/services/hooks.ts`, `src/schema/interfaces.ts`).
Times are `Int` milliseconds (JS `Date.now()`), JS numbers that hold
integers are `Nat`/`Int`, and `NaN` results are `Option.none`.
Outbound API calls are modelled as explicit effect lists.
-/

namespace Confession

/-! ## Identity codec (`Encryption = 32`, `schema/interfaces.ts` line 53)

`encode` is JS `userId.toString(Encryption)` (digits `0-9` then `a-v`,
lowercase), `decode` is JS `parseInt(tag, Encryption)`: skip leading
whitespace, optional sign, then the longest prefix of radix-32 digits
(case-insensitive); no digit at all gives `NaN`, modelled as `none`. -/

def Encryption : Nat := 32

/-- Value of one radix-32 digit character, `none` if not a digit
(JS `parseInt` accepts `0-9`, `a-v`, `A-V` at radix 32). -/
def digitValB32 (c : Char) : Option Nat :=
  if 48 ≤ c.toNat ∧ c.toNat ≤ 57 then some (c.toNat - 48)
  else if 97 ≤ c.toNat ∧ c.toNat ≤ 118 then some (c.toNat - 87)
  else if 65 ≤ c.toNat ∧ c.toNat ≤ 86 then some (c.toNat - 55)
  else none

/-- The character JS `Number.prototype.toString(32)` uses for digit `d`:
`0-9` then lowercase `a-v`. -/
def digitCharB32 (d : Nat) : Char :=
  if d < 10 then Char.ofNat (48 + d) else Char.ofNat (87 + d)

/-- Whitespace skipped by JS `parseInt`. -/
def isWS (c : Char) : Bool :=
  c = ' ' ∨ c = '\t' ∨ c = '\n' ∨ c = '\r'

/-- Big-endian radix-32 digit expansion, fuel-based so that it evaluates by
kernel reduction. `toB32Aux (n+1) n` computes the digits of `n`. -/
def toB32Aux (fuel n : Nat) : List Nat :=
  match fuel with
  | 0 => []
  | fuel + 1 => if n < Encryption then [n] else toB32Aux fuel (n / Encryption) ++ [n % Encryption]

/-- Digits of `n` in base 32, most significant first. -/
def natToDigitsB32 (n : Nat) : List Nat := toB32Aux (n + 1) n

/-- JS `n.toString(32)` for a non-negative integer `n`. -/
def encodeB32 (n : Nat) : String := String.mk ((natToDigitsB32 n).map digitCharB32)

/-- JS `i.toString(32)` for a possibly negative integer. -/
def encodeB32Int (i : Int) : String :=
  if i < 0 then "-" ++ encodeB32 i.natAbs else encodeB32 i.toNat

/-- Digits-to-value step of `parseInt`: longest prefix of valid radix-32
digits; `none` when that prefix is empty. -/
def parseDigitsB32 (cs : List Char) : Option Nat :=
  let ds := cs.takeWhile (fun c => (digitValB32 c).isSome)
  if ds.isEmpty then none
  else some (ds.foldl (fun a c => a * Encryption + (digitValB32 c).getD 0) 0)

/-- JS `parseInt(s, 32)`; `none` is the `NaN` sentinel. -/
def parseIntJS (s : String) : Option Int :=
  match s.data.dropWhile (fun c => isWS c) with
  | [] => none
  | c :: rest =>
    if c = '-' then (parseDigitsB32 rest).map (fun n => -(n : Int))
    else if c = '+' then (parseDigitsB32 rest).map (fun n => (n : Int))
    else (parseDigitsB32 (c :: rest)).map (fun n => (n : Int))

/-- Value of a big-endian radix-32 digit list. -/
def valB32 (ds : List Nat) : Nat := ds.foldl (fun a d => a * Encryption + d) 0

lemma valB32_append_singleton (ds : List Nat) (d : Nat) :
    valB32 (ds ++ [d]) = valB32 ds * Encryption + d := by
  simp [valB32, List.foldl_append]

lemma toB32Aux_val : ∀ fuel n, n < fuel → valB32 (toB32Aux fuel n) = n := by
  intro fuel
  induction fuel with
  | zero => intro n h; omega
  | succ fuel ih =>
    intro n h
    by_cases h32 : n < Encryption
    · simp [toB32Aux, h32, valB32]
    · have hE : (32 : Nat) ≤ n := by simpa [Encryption] using h32
      have hdiv : n / Encryption < fuel := by
        have h1 : n / Encryption < n := Nat.div_lt_self (by omega) (by simp [Encryption])
        omega
      simp only [toB32Aux, if_neg h32]
      rw [valB32_append_singleton, ih _ hdiv, Nat.mul_comm]
      exact Nat.div_add_mod n Encryption

lemma toB32Aux_lt : ∀ fuel n, ∀ d ∈ toB32Aux fuel n, d < Encryption := by
  intro fuel
  induction fuel with
  | zero => intro n d hd; simp [toB32Aux] at hd
  | succ fuel ih =>
    intro n d hd
    by_cases h32 : n < Encryption
    · simp [toB32Aux, h32] at hd; omega
    · simp only [toB32Aux, if_neg h32, List.mem_append, List.mem_singleton] at hd
      rcases hd with hd | hd
      · exact ih _ _ hd
      · subst hd; exact Nat.mod_lt _ (by simp [Encryption])

lemma toB32Aux_ne_nil : ∀ fuel n, n < fuel → toB32Aux fuel n ≠ [] := by
  intro fuel n h
  cases fuel with
  | zero => omega
  | succ fuel =>
    by_cases h32 : n < Encryption <;> simp [toB32Aux, h32]

lemma digitValB32_digitCharB32 : ∀ d, d < 32 → digitValB32 (digitCharB32 d) = some d := by
  decide

lemma isWS_digitCharB32 : ∀ d, d < 32 → isWS (digitCharB32 d) = false := by
  decide

lemma digitCharB32_ne_sign : ∀ d, d < 32 → digitCharB32 d ≠ '-' ∧ digitCharB32 d ≠ '+' := by
  decide

lemma takeWhile_all {p : Char → Bool} :
    ∀ l : List Char, (∀ c ∈ l, p c = true) → l.takeWhile p = l := by
  intro l h
  induction l with
  | nil => rfl
  | cons c t ih =>
    rw [List.takeWhile_cons, h c (List.mem_cons_self c t)]
    simp [ih fun x hx => h x (List.mem_cons_of_mem _ hx)]

lemma dropWhile_notWS {c : Char} (t : List Char) (h : isWS c = false) :
    (c :: t).dropWhile (fun x => isWS x) = c :: t := by
  simp [List.dropWhile_cons, h]

lemma foldl_map_digits :
    ∀ ds : List Nat, (∀ d ∈ ds, d < Encryption) → ∀ a : Nat,
      (ds.map digitCharB32).foldl (fun acc c => acc * Encryption + (digitValB32 c).getD 0) a
        = ds.foldl (fun acc d => acc * Encryption + d) a := by
  intro ds
  induction ds with
  | nil => intro _ _; rfl
  | cons d t ih =>
    intro h a
    have hd : d < Encryption := h d (List.mem_cons_self d t)
    simp only [List.map_cons, List.foldl_cons,
      digitValB32_digitCharB32 d hd, Option.getD_some]
    exact ih (fun x hx => h x (List.mem_cons_of_mem _ hx)) _

lemma parseDigits_of_digits (ds : List Nat) (hne : ds ≠ [])
    (hlt : ∀ d ∈ ds, d < Encryption) :
    parseDigitsB32 (ds.map digitCharB32) = some (valB32 ds) := by
  have hall : ∀ c ∈ ds.map digitCharB32, (digitValB32 c).isSome = true := by
    intro c hc
    rcases List.mem_map.1 hc with ⟨d, hd, rfl⟩
    rw [digitValB32_digitCharB32 d (hlt d hd)]; rfl
  unfold parseDigitsB32
  rw [takeWhile_all _ hall]
  have hne' : (ds.map digitCharB32).isEmpty = false := by
    cases ds with
    | nil => exact absurd rfl hne
    | cons _ _ => rfl
  simp only [hne', Bool.false_eq_true, if_false, valB32]
  rw [foldl_map_digits ds hlt 0]

lemma parseIntJS_cons (c : Char) (t : List Char) (hws : isWS c = false)
    (h1 : c ≠ '-') (h2 : c ≠ '+') :
    parseIntJS (String.mk (c :: t)) = (parseDigitsB32 (c :: t)).map (fun n => (n : Int)) := by
  have hdata : (String.mk (c :: t)).data = c :: t := rfl
  unfold parseIntJS
  rw [hdata, dropWhile_notWS t hws]
  simp only [if_neg h1, if_neg h2]

/-- Claim C1. For every positive user id `u`, decoding the encoded tag returns
`u`: `parseInt(u.toString(32), 32) == u` with `Encryption = 32`
(`bot.ts` lines 779–782 encode, 894–905 decode). -/
theorem codec_roundtrip_c1 (u : Nat) (hu : 0 < u) :
    parseIntJS (encodeB32 u) = some (u : Int) := by
  have hfuel : u < u + 1 := Nat.lt_succ_self u
  have hne := toB32Aux_ne_nil (u + 1) u hfuel
  have hlt := toB32Aux_lt (u + 1) u
  have hval := toB32Aux_val (u + 1) u hfuel
  cases hds : toB32Aux (u + 1) u with
  | nil => exact absurd hds hne
  | cons d0 dt =>
    have hd0 : d0 < Encryption := hlt d0 (by rw [hds]; exact List.mem_cons_self _ _)
    have henc : encodeB32 u = String.mk (digitCharB32 d0 :: dt.map digitCharB32) := by
      unfold encodeB32 natToDigitsB32
      rw [hds]; rfl
    have hsign := digitCharB32_ne_sign d0 hd0
    rw [henc, parseIntJS_cons _ _ (isWS_digitCharB32 d0 hd0) hsign.1 hsign.2]
    have hmap : digitCharB32 d0 :: dt.map digitCharB32 = (d0 :: dt).map digitCharB32 := rfl
    rw [hmap, parseDigits_of_digits (d0 :: dt) (by simp)
      (fun d hd => hlt d (by rw [hds]; exact hd))]
    rw [hds] at hval
    simp [hval]

/-- Witness for C1 at the concrete user id 12345. -/
theorem codec_roundtrip_c1_witness :
    0 < 12345 ∧ parseIntJS (encodeB32 12345) = some (12345 : Int) :=
  ⟨by decide, codec_roundtrip_c1 12345 (by decide)⟩

/-! ## Data model (`schema/interfaces.ts`) and destination constants -/

/-- Per-user session (`UserData` in `schema/interfaces.ts`). `confessions`
holds the post ids of the `{id: postId}` records, most recent first. -/
structure UserData where
  confessionTime : Int
  confessions : List Nat
  isBanned : Bool
  freeConfessions : Int
  refby : Int
  deriving DecidableEq

def LOG_GROUP_ID : Int := -1002411523907
def CHAT_ID : Int := -1002385443108
def CHANNEL_ID : Int := -1002485358730
def REVIEW_ID : Int := -1002525866821
def BACKUP_ID : Int := -1002552730710

/-! ## Hooks (`services/hooks.ts`) -/

/-- Hook `getRemainingTime` of `services/hooks.ts`: clamp-to-zero absolute difference,
rendered as whole hours and whole minutes. -/
def getRemainingTime (time1 time2 : Int) : String :=
  let diff := max 0 (if time1 - time2 < 0 then -(time1 - time2) else time1 - time2)
  let hours := diff / 3600000
  let minutes := diff % 3600000 / 60000
  s!"{hours} hours {minutes} mins"

/-- ASCII lowercase of a string (JS `toLowerCase` on the checked texts). -/
def lowerStr (s : String) : String := String.mk (s.data.map Char.toLower)

/-- JS `String.prototype.includes`. -/
def containsStr (hay needle : String) : Bool :=
  hay.data.tails.any (fun t => needle.data.isPrefixOf t)

/-- Hook `linkChecker` of `services/hooks.ts`. -/
def linkChecker (text : String) : Bool :=
  containsStr (lowerStr text) "t.me" || containsStr (lowerStr text) "http" ||
    containsStr (lowerStr text) "www"

/-! ## Submission throttle (`/confess` lines 745–790, `/post` lines 669–743)

Each handler is a function from the session and the current time to the
outbound effects it performs plus the updated session. The DM-only guard and
the `freeConfessions == undefined` normalisation are outside the model: the
session is keyed to the sender and `freeConfessions` is always a number here. -/

inductive PayloadKind
  | text
  | photo
  | audio
  | voice
  deriving DecidableEq

/-- Media attached to the message `/post` replies to. -/
structure Media where
  kind : PayloadKind
  duration : Nat
  deriving DecidableEq

/-- Outbound effects of the `/confess` and `/post` handlers, in order. -/
inductive CEff
  | replyCooldown (remaining : String)
  | deleteOwn
  | replyNoLink
  | replyEmpty
  | replyTooLong
  | notifyDiscarded (uid : Nat)
  | audit (chat : Int) (content : String)
  | sendReview (kind : PayloadKind) (content : String)
  | editReviewHeader (tag : String) (content : String)
  deriving DecidableEq

/-- The `/confess` handler (`bot.ts` lines 745–790). `window` is the imported
`ConfessionLimitResetMs` cooldown constant, `now` is `Date.now()`, `uid` the
sender's id, `msg` the already-trimmed `ctx.match`. -/
def confessStep (window now : Int) (uid : Nat) (u : UserData) (msg : String) :
    List CEff × UserData :=
  if now - u.confessionTime < window ∧ u.confessionTime ≠ 0 ∧ u.freeConfessions = 0 then
    ([.replyCooldown (getRemainingTime (u.confessionTime + window) now)], u)
  else if linkChecker msg then ([.deleteOwn, .replyNoLink], u)
  else if msg.length = 0 then ([.deleteOwn, .replyEmpty], u)
  else if u.isBanned then
    ([.notifyDiscarded uid, .audit REVIEW_ID msg, .audit BACKUP_ID msg],
      { u with confessionTime := now })
  else
    ([.sendReview .text msg, .editReviewHeader (encodeB32 uid) msg, .audit BACKUP_ID msg],
      { u with
        freeConfessions :=
          if u.freeConfessions > 0 ∧ now - u.confessionTime < window then
            u.freeConfessions - 1
          else u.freeConfessions,
        confessionTime := now })

/-- The `/post` handler (`bot.ts` lines 669–743). `media` is the photo /
audio / voice attached to the replied-to message, `cap` its caption. -/
def postStep (window now : Int) (uid : Nat) (u : UserData) (media : Option Media)
    (cap : String) : List CEff × UserData :=
  if now - u.confessionTime < window ∧ u.confessionTime ≠ 0 ∧ u.freeConfessions = 0 then
    ([.replyCooldown (getRemainingTime (u.confessionTime + window) now)], u)
  else
    match media with
    | none => ([.deleteOwn, .replyEmpty], u)
    | some m =>
      if u.isBanned then
        ([.notifyDiscarded uid, .audit REVIEW_ID cap, .audit BACKUP_ID cap],
          { u with confessionTime := now })
      else if (m.kind = .audio ∨ m.kind = .voice) ∧ m.duration > 121 then
        ([.replyTooLong], u)
      else
        ([.sendReview m.kind cap, .editReviewHeader (encodeB32 uid) cap,
          .audit BACKUP_ID cap],
         { u with
           freeConfessions :=
             if u.freeConfessions > 0 ∧ now - u.confessionTime < window then
               u.freeConfessions - 1
             else u.freeConfessions,
           confessionTime := now })

/-- The claim's formatting of a remaining duration as whole hours and
minutes, stated independently of `getRemainingTime`. -/
def fmtHoursMins (d : Int) : String :=
  s!"{d / 3600000} hours {d % 3600000 / 60000} mins"

lemma getRemainingTime_eq_fmt (T window now : Int) (h : now - T < window) :
    getRemainingTime (T + window) now = fmtHoursMins (window - (now - T)) := by
  have key : max 0 (if T + window - now < 0 then -(T + window - now) else T + window - now)
      = window - (now - T) := by
    rw [if_neg (by omega), max_eq_right (by omega)]
    omega
  simp only [getRemainingTime, fmtHoursMins, key]

/-- Claim C2. With `freeConfessions = 0` and `confessionTime = T ≠ 0`, a
submission inside the cooldown window is rejected with the remaining wait
(window minus elapsed, whole hours and minutes) and an unchanged session,
and a submission at `now ≥ T + window` is accepted — for both `/confess`
(`bot.ts` 757–762) and `/post` (`bot.ts` 681–686), with `getRemainingTime`
from `services/hooks.ts` 112–117. -/
theorem throttle_reject_accept_c2 (window now : Int) (uid : Nat) (u : UserData)
    (msg cap : String) (m : Media)
    (hfree : u.freeConfessions = 0) (hT0 : u.confessionTime ≠ 0)
    (hlink : linkChecker msg = false) (hlen : msg.length ≠ 0)
    (hban : u.isBanned = false)
    (hdur : ¬((m.kind = .audio ∨ m.kind = .voice) ∧ m.duration > 121)) :
    (now - u.confessionTime < window →
      confessStep window now uid u msg
        = ([CEff.replyCooldown (getRemainingTime (u.confessionTime + window) now)], u) ∧
      postStep window now uid u (some m) cap
        = ([CEff.replyCooldown (getRemainingTime (u.confessionTime + window) now)], u) ∧
      getRemainingTime (u.confessionTime + window) now
        = fmtHoursMins (window - (now - u.confessionTime))) ∧
    (window ≤ now - u.confessionTime →
      confessStep window now uid u msg
        = ([.sendReview .text msg, .editReviewHeader (encodeB32 uid) msg,
            .audit BACKUP_ID msg], { u with confessionTime := now }) ∧
      postStep window now uid u (some m) cap
        = ([.sendReview m.kind cap, .editReviewHeader (encodeB32 uid) cap,
            .audit BACKUP_ID cap], { u with confessionTime := now })) := by
  constructor
  · intro hin
    refine ⟨?_, ?_, getRemainingTime_eq_fmt u.confessionTime window now hin⟩
    · unfold confessStep
      rw [if_pos ⟨hin, hT0, hfree⟩]
    · unfold postStep
      rw [if_pos ⟨hin, hT0, hfree⟩]
  · intro hout
    have hcd : ¬(now - u.confessionTime < window ∧ u.confessionTime ≠ 0 ∧
        u.freeConfessions = 0) := by
      intro hc; omega
    have hnodec : ¬(u.freeConfessions > 0 ∧ now - u.confessionTime < window) := by
      intro hc; omega
    constructor
    · unfold confessStep
      rw [if_neg hcd, if_neg (by simp [hlink]), if_neg (by simpa using hlen),
        if_neg (by simp [hban])]
      simp only [if_neg hnodec]
    · unfold postStep
      rw [if_neg hcd]
      simp only [if_neg (by simp [hban] : ¬u.isBanned = true), if_neg hdur,
        if_neg hnodec]

/-- Witness for C2: `T = 50`, `window = 100`, `freeConfessions = 0`:
rejected at `now = 60` with `0 hours 1 mins` remaining, accepted at
`now = 151`. -/
theorem throttle_reject_accept_c2_witness :
    confessStep 100 60 7 ⟨50, [], false, 0, 0⟩ "hi"
      = ([CEff.replyCooldown (getRemainingTime 150 60)], ⟨50, [], false, 0, 0⟩) ∧
    getRemainingTime 150 60 = fmtHoursMins 90 ∧
    confessStep 100 151 7 ⟨50, [], false, 0, 0⟩ "hi"
      = ([.sendReview .text "hi", .editReviewHeader (encodeB32 7) "hi",
          .audit BACKUP_ID "hi"], ⟨151, [], false, 0, 0⟩) := by
  have h1 := (throttle_reject_accept_c2 100 60 7 ⟨50, [], false, 0, 0⟩ "hi" "c"
    ⟨.photo, 0⟩ (by decide) (by decide) (by decide) (by decide) (by decide)
    (by decide)).1 (by decide)
  have h2 := (throttle_reject_accept_c2 100 151 7 ⟨50, [], false, 0, 0⟩ "hi" "c"
    ⟨.photo, 0⟩ (by decide) (by decide) (by decide) (by decide) (by decide)
    (by decide)).2 (by decide)
  exact ⟨h1.1, h1.2.2, h2.1⟩

/-- Claim C3. On every accepted non-banned submission (both handlers): a user
still inside the cooldown window with `freeConfessions > 0` loses exactly one
credit, a user past the window keeps the balance, and `confessionTime` is set
to `now` (`bot.ts` 784–787 for `/confess`, 735–740 for `/post`). -/
theorem bonus_decrement_c3 (window now : Int) (uid : Nat) (u : UserData)
    (msg cap : String) (m : Media)
    (hcd : ¬(now - u.confessionTime < window ∧ u.confessionTime ≠ 0 ∧
      u.freeConfessions = 0))
    (hlink : linkChecker msg = false) (hlen : msg.length ≠ 0)
    (hban : u.isBanned = false)
    (hdur : ¬((m.kind = .audio ∨ m.kind = .voice) ∧ m.duration > 121)) :
    (u.freeConfessions > 0 ∧ now - u.confessionTime < window →
      (confessStep window now uid u msg).2.freeConfessions = u.freeConfessions - 1 ∧
      (postStep window now uid u (some m) cap).2.freeConfessions
        = u.freeConfessions - 1) ∧
    (¬(now - u.confessionTime < window) →
      (confessStep window now uid u msg).2.freeConfessions = u.freeConfessions ∧
      (postStep window now uid u (some m) cap).2.freeConfessions
        = u.freeConfessions) ∧
    (confessStep window now uid u msg).2.confessionTime = now ∧
    (postStep window now uid u (some m) cap).2.confessionTime = now := by
  have hc : confessStep window now uid u msg
      = ([.sendReview .text msg, .editReviewHeader (encodeB32 uid) msg,
          .audit BACKUP_ID msg],
         { u with
           freeConfessions :=
             if u.freeConfessions > 0 ∧ now - u.confessionTime < window then
               u.freeConfessions - 1
             else u.freeConfessions,
           confessionTime := now }) := by
    unfold confessStep
    rw [if_neg hcd, if_neg (by simp [hlink]), if_neg (by simpa using hlen),
      if_neg (by simp [hban])]
  have hp : postStep window now uid u (some m) cap
      = ([.sendReview m.kind cap, .editReviewHeader (encodeB32 uid) cap,
          .audit BACKUP_ID cap],
         { u with
           freeConfessions :=
             if u.freeConfessions > 0 ∧ now - u.confessionTime < window then
               u.freeConfessions - 1
             else u.freeConfessions,
           confessionTime := now }) := by
    unfold postStep
    rw [if_neg hcd]
    simp only [if_neg (by simp [hban] : ¬u.isBanned = true), if_neg hdur]
  refine ⟨fun hdec => ?_, fun hnd => ?_, ?_, ?_⟩
  · rw [hc, hp]; simp [if_pos hdec]
  · have : ¬(u.freeConfessions > 0 ∧ now - u.confessionTime < window) := by
      intro hx; exact hnd hx.2
    rw [hc, hp]; simp [if_neg this]
  · rw [hc]
  · rw [hp]

/-- Witness for C3: `freeConfessions = 1` inside the cooldown window: the
submission is accepted and the balance drops to `0`. -/
theorem bonus_decrement_c3_witness :
    (confessStep 100 60 7 ⟨50, [], false, 1, 0⟩ "hi").2.freeConfessions = 0 ∧
    (confessStep 100 60 7 ⟨50, [], false, 1, 0⟩ "hi").2.confessionTime = 60 := by
  have h := bonus_decrement_c3 100 60 7 ⟨50, [], false, 1, 0⟩ "hi" "c" ⟨.photo, 0⟩
    (by decide) (by decide) (by decide) (by decide) (by decide)
  exact ⟨by rw [(h.1 (by decide)).1]; decide, h.2.2.1⟩

/-- Counterexample to C4 as stated: a banned user with `confessionTime = 1`,
`freeConfessions = 0`, submitting at `now = 2` inside a `window = 100`
cooldown receives the cooldown rejection, no audit copy reaches the review
channel, and `confessionTime` is not refreshed — the cooldown check
(`bot.ts` 757) runs before the ban check (`bot.ts` 772). -/
theorem banned_discard_c4_counterexample :
    (confessStep 100 2 7 ⟨1, [], true, 0, 0⟩ "hello").1
      = [CEff.replyCooldown (getRemainingTime 101 2)] ∧
    CEff.audit REVIEW_ID "hello" ∉ (confessStep 100 2 7 ⟨1, [], true, 0, 0⟩ "hello").1 ∧
    CEff.notifyDiscarded 7 ∉ (confessStep 100 2 7 ⟨1, [], true, 0, 0⟩ "hello").1 ∧
    (confessStep 100 2 7 ⟨1, [], true, 0, 0⟩ "hello").2.confessionTime = 1 := by
  decide

/-- Claim C4, amended. For every `/confess` or `/post` submission by a banned
user that passes the cooldown gate and content validation (so the ban branch
at `bot.ts` 772–778 resp. 696–711 is reached): discard notice to the user,
audit copy to both the review and the backup channel, `confessionTime`
refreshed to `now`, and every other session field — `freeConfessions` in
particular — unchanged. -/
theorem banned_discard_c4_amended (window now : Int) (uid : Nat) (u : UserData)
    (msg cap : String) (m : Media)
    (hban : u.isBanned = true)
    (hcd : ¬(now - u.confessionTime < window ∧ u.confessionTime ≠ 0 ∧
      u.freeConfessions = 0))
    (hlink : linkChecker msg = false) (hlen : msg.length ≠ 0) :
    confessStep window now uid u msg
      = ([.notifyDiscarded uid, .audit REVIEW_ID msg, .audit BACKUP_ID msg],
         { u with confessionTime := now }) ∧
    postStep window now uid u (some m) cap
      = ([.notifyDiscarded uid, .audit REVIEW_ID cap, .audit BACKUP_ID cap],
         { u with confessionTime := now }) := by
  constructor
  · unfold confessStep
    rw [if_neg hcd, if_neg (by simp [hlink]), if_neg (by simpa using hlen),
      if_pos (by simp [hban])]
  · unfold postStep
    rw [if_neg hcd]
    simp only [if_pos (by simp [hban] : u.isBanned = true)]

/-- Witness for the amended C4: a banned user who has never submitted
(`confessionTime = 0`) gets the discard path with an unchanged balance. -/
theorem banned_discard_c4_amended_witness :
    confessStep 100 60 7 ⟨0, [], true, 3, 0⟩ "hello"
      = ([.notifyDiscarded 7, .audit REVIEW_ID "hello", .audit BACKUP_ID "hello"],
         ⟨60, [], true, 3, 0⟩) ∧
    (confessStep 100 60 7 ⟨0, [], true, 3, 0⟩ "hello").2.freeConfessions = 3 :=
  ⟨(banned_discard_c4_amended 100 60 7 ⟨0, [], true, 3, 0⟩ "hello" "c" ⟨.photo, 0⟩
      (by decide) (by decide) (by decide) (by decide)).1,
   by rw [(banned_discard_c4_amended 100 60 7 ⟨0, [], true, 3, 0⟩ "hello" "c"
      ⟨.photo, 0⟩ (by decide) (by decide) (by decide) (by decide)).1]⟩

/-! ## Referral and admin credit grants (`bot.ts` 646–667) -/

/-- The `/grant` balance mutation (`bot.ts` 658–667): the target's
`freeConfessions` gains the parsed amount `Number(num[1])` — the only guard
in the handler is `isNaN`, so any finite amount, negative included, passes. -/
def grantStep (target : UserData) (amount : Int) : UserData :=
  { target with freeConfessions := target.freeConfessions + amount }

/-- The `/refby` mutation (`bot.ts` 646–656): when the caller has no referrer
recorded and the referrer's session exists, record the referrer and grant one
credit to each; otherwise no write happens (second component `none`). -/
def refbyStep (caller : UserData) (refId : Int) (referrer : Option UserData) :
    UserData × Option UserData :=
  if caller.refby = 0 then
    match referrer with
    | none => (caller, none)
    | some r =>
      ({ caller with refby := refId, freeConfessions := caller.freeConfessions + 1 },
       some { r with freeConfessions := r.freeConfessions + 1 })
  else (caller, none)

/-- Counterexample to C8 as stated: `/grant <id> -5` passes the handler's
`isNaN` guards (`Number("-5")` is not `NaN`) and drives a zero balance to
`-5 < 0`. -/
theorem free_nonneg_c8_counterexample :
    (grantStep ⟨0, [], false, 0, 0⟩ (-5)).freeConfessions = -5 ∧
    ¬(0 ≤ (grantStep ⟨0, [], false, 0, 0⟩ (-5)).freeConfessions) := by
  decide

/-- Claim C8, amended. The invariant `freeConfessions ≥ 0` is preserved by the
submission-time decrement (both handlers) and by the referral grant, and by
`/grant` whenever the granted amount is non-negative; a negative `/grant`
amount can make the balance negative. -/
theorem free_nonneg_c8_amended :
    (∀ window now : Int, ∀ uid : Nat, ∀ u : UserData, ∀ msg : String,
      0 ≤ u.freeConfessions →
      0 ≤ (confessStep window now uid u msg).2.freeConfessions) ∧
    (∀ window now : Int, ∀ uid : Nat, ∀ u : UserData, ∀ media : Option Media,
      ∀ cap : String, 0 ≤ u.freeConfessions →
      0 ≤ (postStep window now uid u media cap).2.freeConfessions) ∧
    (∀ caller : UserData, ∀ refId : Int, ∀ referrer : Option UserData,
      0 ≤ caller.freeConfessions →
      0 ≤ (refbyStep caller refId referrer).1.freeConfessions ∧
      ∀ r r', referrer = some r → 0 ≤ r.freeConfessions →
        (refbyStep caller refId referrer).2 = some r' →
        0 ≤ r'.freeConfessions) ∧
    (∀ target : UserData, ∀ amount : Int, 0 ≤ target.freeConfessions →
      0 ≤ amount → 0 ≤ (grantStep target amount).freeConfessions) := by
  refine ⟨fun window now uid u msg hu => ?_, fun window now uid u media cap hu => ?_,
    fun caller refId referrer hc => ⟨?_, ?_⟩, fun target amount ht ha => ?_⟩
  · unfold confessStep
    split_ifs with h1 h2 h3 h4 h5 <;> simp_all <;> omega
  · cases media with
    | none =>
      unfold postStep
      dsimp only
      split_ifs <;> simpa using hu
    | some m =>
      unfold postStep
      dsimp only
      split_ifs with h1 h2 h3 h4 <;> simp_all <;> omega
  · unfold refbyStep
    cases referrer with
    | none => split_ifs <;> simp_all
    | some r => split_ifs <;> simp_all <;> omega
  · intro r r' href hr hout
    subst href
    unfold refbyStep at hout
    by_cases h : caller.refby = 0
    · rw [if_pos h] at hout
      dsimp only at hout
      injection hout with h2
      subst h2
      show 0 ≤ r.freeConfessions + 1
      omega
    · rw [if_neg h] at hout
      exact Option.noConfusion hout
  · show 0 ≤ target.freeConfessions + amount
    omega

/-- Witness for the amended C8 at concrete inputs: a decrement from `1`, a
referral grant from `0`, and `/grant 2` from `0` all stay non-negative. -/
theorem free_nonneg_c8_amended_witness :
    0 ≤ (confessStep 100 60 7 ⟨50, [], false, 1, 0⟩ "hi").2.freeConfessions ∧
    0 ≤ (grantStep ⟨0, [], false, 0, 0⟩ 2).freeConfessions :=
  ⟨free_nonneg_c8_amended.1 100 60 7 ⟨50, [], false, 1, 0⟩ "hi" (by decide),
   free_nonneg_c8_amended.2.2.2 ⟨0, [], false, 0, 0⟩ 2 (by decide) (by decide)⟩

/-! ## Broadcast fan-out target selection (`bot.ts` 396–401, 421–426,
446–451, 474–479, 798–803)

Every fan-out pass runs `groups.filter((id) => id < 0).forEach(...)` and
skips the five fixed destinations before calling `safeBroadcastToChat`. -/

/-- The chats a fan-out pass actually sends to, from the subscriber chat-id
snapshot `groups`. -/
def broadcastTargets (groups : List Int) : List Int :=
  (groups.filter (fun id => id < 0)).filter (fun gID =>
    !(gID == CHANNEL_ID || gID == LOG_GROUP_ID || gID == CHAT_ID ||
      gID == REVIEW_ID || gID == BACKUP_ID))

/-- Claim C5. A fan-out notice goes only to negative (group-style) chat ids and
never to the public channel, log chat, discussion chat, review chat or backup
chat. -/
theorem fanout_exclusion_c5 (groups : List Int) (g : Int)
    (hg : g ∈ broadcastTargets groups) :
    g < 0 ∧ g ≠ CHANNEL_ID ∧ g ≠ LOG_GROUP_ID ∧ g ≠ CHAT_ID ∧ g ≠ REVIEW_ID ∧
      g ≠ BACKUP_ID := by
  unfold broadcastTargets at hg
  rw [List.mem_filter] at hg
  obtain ⟨hg1, hg2⟩ := hg
  rw [List.mem_filter] at hg1
  obtain ⟨_, hneg⟩ := hg1
  simp only [Bool.not_eq_true', Bool.or_eq_false_iff, beq_eq_false_iff_ne, ne_eq] at hg2
  refine ⟨by simpa using hneg, hg2.1.1.1.1, hg2.1.1.1.2, hg2.1.1.2, hg2.1.2, hg2.2⟩

/-- Witness for C5: a pass over a snapshot holding one real group, the
public channel and a positive (user) id targets only the real group. -/
theorem fanout_exclusion_c5_witness :
    (-5 : Int) ∈ broadcastTargets [-5, CHANNEL_ID, 7] ∧
    (-5 : Int) < 0 ∧ (-5 : Int) ≠ CHANNEL_ID ∧ (-5 : Int) ≠ LOG_GROUP_ID ∧
      (-5 : Int) ≠ CHAT_ID ∧ (-5 : Int) ≠ REVIEW_ID ∧ (-5 : Int) ≠ BACKUP_ID :=
  ⟨by decide, fanout_exclusion_c5 [-5, CHANNEL_ID, 7] (-5) (by decide)⟩

/-! ## Per-chat delivery with stale-chat pruning (`safeBroadcastToChat`,
`bot.ts` 33–77, and `deleteChatID`, `services/db.ts` 180–183) -/

/-- What the transport reports for the single `sendMessage` attempt. -/
inductive SendOutcome
  | ok
  | chatNotFound
  | topicRequired (isForumSupergroup : Bool)
  | otherError
  deriving DecidableEq

/-- Process-wide state touched by `safeBroadcastToChat`: the in-memory
`topicCache`, the chat-id list cache (`none` = invalidated), the persistent
`config` table rows (the subscriber store), and the `threadId` column the
`readConfig` lookup reads. -/
structure BState where
  topicCache : List (Int × Option Int)
  chatIdsCache : Option (List Int)
  dbChats : List Int
  dbTopic : Int → Option Int

def assocGet (l : List (Int × Option Int)) (k : Int) : Option (Option Int) :=
  (l.find? (fun p => p.1 == k)).map (fun p => p.2)

def assocSet (l : List (Int × Option Int)) (k : Int) (v : Option Int) :
    List (Int × Option Int) :=
  (k, v) :: l.filter (fun p => p.1 != k)

def assocDel (l : List (Int × Option Int)) (k : Int) : List (Int × Option Int) :=
  l.filter (fun p => p.1 != k)

/-- Result of one `safeBroadcastToChat` call: how many sends were attempted
to the chat and whether the call returned normally (`handled = true`) or
rethrew to the caller's `.catch` logger. -/
structure SendReport where
  attempts : Nat
  handled : Bool
  deriving DecidableEq

/-- Function `safeBroadcastToChat` (`bot.ts` 33–77): resolve the topic via cache then
`readConfig` (caching the answer), send once; on a `chat not found` error
delete the chat from the persistent store (which also invalidates the
chat-id list cache, `db.ts` 180–183), drop its topic-cache entry and return;
on `topic must be specified` in a forum supergroup retry once with the
General topic; otherwise rethrow. The retry's own outcome is not modelled. -/
def safeBroadcastToChat (st : BState) (chatId : Int) (outcome : SendOutcome) :
    BState × SendReport :=
  let st1 :=
    match assocGet st.topicCache chatId with
    | some _ => st
    | none =>
      { st with topicCache := assocSet st.topicCache chatId (st.dbTopic chatId) }
  match outcome with
  | .ok => (st1, ⟨1, true⟩)
  | .chatNotFound =>
    ({ st1 with
        dbChats := st1.dbChats.filter (fun id => id != chatId),
        chatIdsCache := none,
        topicCache := assocDel st1.topicCache chatId }, ⟨1, true⟩)
  | .topicRequired forum =>
    if forum then (st1, ⟨2, true⟩) else (st1, ⟨1, false⟩)
  | .otherError => (st1, ⟨1, false⟩)

/-- Claim C9. A `chat not found` failure removes the chat from the persistent
subscriber store, leaves no topic-cache entry for it, invalidates the
chat-id list cache, is handled (not rethrown) after exactly one send
attempt, and a duplicate-free snapshot yields duplicate-free fan-out
targets, so the chat is not re-delivered within the pass. -/
theorem stale_chat_pruning_c9 (st : BState) (chatId : Int) :
    ((safeBroadcastToChat st chatId .chatNotFound).1.dbChats
       = st.dbChats.filter (fun id => id != chatId)) ∧
    chatId ∉ (safeBroadcastToChat st chatId .chatNotFound).1.dbChats ∧
    assocGet (safeBroadcastToChat st chatId .chatNotFound).1.topicCache chatId = none ∧
    (safeBroadcastToChat st chatId .chatNotFound).1.chatIdsCache = none ∧
    (safeBroadcastToChat st chatId .chatNotFound).2 = ⟨1, true⟩ ∧
    (∀ groups : List Int, groups.Nodup → (broadcastTargets groups).Nodup) := by
  have hdel : ∀ l : List (Int × Option Int),
      assocGet (assocDel l chatId) chatId = none := by
    intro l
    unfold assocGet assocDel
    have hfind : (l.filter (fun p => p.1 != chatId)).find? (fun p => p.1 == chatId)
        = none := by
      rw [List.find?_eq_none]
      intro p hp
      have hne := (List.mem_filter.1 hp).2
      simp only [bne_iff_ne, ne_eq] at hne
      simp [hne]
    rw [hfind]
    rfl
  constructor
  · unfold safeBroadcastToChat
    cases assocGet st.topicCache chatId <;> rfl
  refine ⟨?_, ?_, ?_, ?_, ?_⟩
  · unfold safeBroadcastToChat
    cases assocGet st.topicCache chatId <;>
      · dsimp only
        rw [List.mem_filter]
        simp
  · unfold safeBroadcastToChat
    cases assocGet st.topicCache chatId <;> exact hdel _
  · unfold safeBroadcastToChat
    cases assocGet st.topicCache chatId <;> rfl
  · unfold safeBroadcastToChat
    cases assocGet st.topicCache chatId <;> rfl
  · intro groups hnd
    exact (hnd.filter _).filter _

/-! ## User-session cache write-through (`readID`/`writeID`,
`services/db.ts` 157–178) -/

def USER_TTL_MS : Int := 30000

/-- The session table and the in-memory user cache (`userCache`): rows are
`(id, parsed session)`, cache entries `(id, (value, ts))`. -/
structure SStore where
  rows : List (Int × UserData)
  cache : List (Int × UserData × Int)
  deriving DecidableEq

def cacheGet (c : List (Int × UserData × Int)) (id : Int) : Option (UserData × Int) :=
  (c.find? (fun p => p.1 == id)).map (fun p => p.2)

def cacheSet (c : List (Int × UserData × Int)) (id : Int) (v : UserData) (ts : Int) :
    List (Int × UserData × Int) :=
  (id, v, ts) :: c.filter (fun p => p.1 != id)

def rowsGet (r : List (Int × UserData)) (id : Int) : Option UserData :=
  (r.find? (fun p => p.1 == id)).map (fun p => p.2)

def rowsUpsert (r : List (Int × UserData)) (id : Int) (v : UserData) :
    List (Int × UserData) :=
  (id, v) :: r.filter (fun p => p.1 != id)

/-- Store write `writeID` (`db.ts` 174–178): upsert the row, then cache the value with
the current timestamp. -/
def writeID (st : SStore) (id : Int) (v : UserData) (now : Int) : SStore :=
  { rows := rowsUpsert st.rows id v, cache := cacheSet st.cache id v now }

/-- Store read `readID` (`db.ts` 157–172): serve from cache within the 30 s TTL;
otherwise query the table, caching a found row. The second component records
whether the database was consulted. -/
def readID (st : SStore) (id : Int) (now : Int) : Option UserData × Bool × SStore :=
  match cacheGet st.cache id with
  | some (v, ts) =>
    if now - ts < USER_TTL_MS then (some v, false, st)
    else
      match rowsGet st.rows id with
      | none => (none, true, st)
      | some v' => (some v', true, { st with cache := cacheSet st.cache id v' now })
  | none =>
    match rowsGet st.rows id with
    | none => (none, true, st)
    | some v' => (some v', true, { st with cache := cacheSet st.cache id v' now })

/-- Claim C10. After `writeID(id, v)` at time `t`, a `readID(id)` within the
30-second user-cache TTL returns exactly `v` from the cache, without
consulting the database and without touching the state. -/
theorem cache_write_through_c10 (st : SStore) (id : Int) (v : UserData)
    (t t' : Int) (httl : t' - t < USER_TTL_MS) :
    readID (writeID st id v t) id t' = (some v, false, writeID st id v t) := by
  have hget : cacheGet (writeID st id v t).cache id = some (v, t) := by
    unfold writeID cacheSet cacheGet
    simp [List.find?_cons]
  unfold readID
  rw [hget]
  simp [httl]

/-- Witness for C10: write at `t = 100`, read at `t' = 200`. -/
theorem cache_write_through_c10_witness :
    (200 : Int) - 100 < USER_TTL_MS ∧
    readID (writeID ⟨[], []⟩ 7 ⟨0, [], false, 0, 0⟩ 100) 7 200
      = (some ⟨0, [], false, 0, 0⟩, false, writeID ⟨[], []⟩ 7 ⟨0, [], false, 0, 0⟩ 100) :=
  ⟨by decide, cache_write_through_c10 ⟨[], []⟩ 7 ⟨0, [], false, 0, 0⟩ 100 200 (by decide)⟩

/-! ## Post-identity resolver (`bot.ts` 891–941)

`findHeader` walks the reply chain upward (at most 25 hops) and runs
`/Confession-([A-Za-z0-9]+)-(\d+)/` against each message's caption-or-text.
The regex is modelled exactly: the first start position where the literal
`Confession-` is followed by a maximal alphanumeric run, a `-`, and at least
one digit. Because `-` is not alphanumeric the greedy tag group never
backtracks to a shorter run, so first-position scanning is the full
semantics. -/

/-- Character class `[A-Za-z0-9]`. -/
def isAlnumC (c : Char) : Bool :=
  (48 ≤ c.toNat && c.toNat ≤ 57) || (97 ≤ c.toNat && c.toNat ≤ 122) ||
    (65 ≤ c.toNat && c.toNat ≤ 90)

/-- Character class `\d`. -/
def isDigitC (c : Char) : Bool := 48 ≤ c.toNat && c.toNat ≤ 57

def headerLit : List Char := "Confession-".data

/-- Match `([A-Za-z0-9]+)-(\d+)` at the start of `rest`, returning the two
capture groups. -/
def matchTag (rest : List Char) : Option (List Char × List Char) :=
  match rest.takeWhile isAlnumC with
  | [] => none
  | t =>
    match rest.drop t.length with
    | '-' :: after =>
      match after.takeWhile isDigitC with
      | [] => none
      | ds => some (t, ds)
    | _ => none

/-- Attempt the whole pattern at this start position. -/
def matchAt (cs : List Char) : Option (List Char × List Char) :=
  if headerLit.isPrefixOf cs then matchTag (cs.drop headerLit.length) else none

/-- JS `regex.exec`: first matching start position, scanning left to right. -/
def execHeader : List Char → Option (List Char × List Char)
  | [] => none
  | c :: t =>
    match matchAt (c :: t) with
    | some r => some r
    | none => execHeader t

/-- Decimal value of the `\d+` capture (JS `Number(postStr)`). -/
def digitsToNat (ds : List Char) : Nat :=
  ds.foldl (fun a c => a * 10 + (c.toNat - 48)) 0

/-- One message in the reply chain: its optional caption and text. -/
structure Body where
  caption : Option String
  text : Option String
  deriving DecidableEq

/-- JS `cur?.caption ?? cur?.text ?? ''`. -/
def bodyStr (b : Body) : String := b.caption.getD (b.text.getD "")

structure Header where
  userId : Int
  postMsgId : Nat
  header : String
  deriving DecidableEq

/-- JS `body.split('\n')`, structural so it evaluates by kernel reduction. -/
def splitLinesAux : List Char → List Char → List (List Char)
  | [], acc => [acc.reverse]
  | c :: t, acc =>
    if c = '\n' then acc.reverse :: splitLinesAux t [] else splitLinesAux t (c :: acc)

def splitLines (s : String) : List String := (splitLinesAux s.data []).map String.mk

def startsWithConfession (l : String) : Bool := headerLit.isPrefixOf l.data

/-- JS `body.split('\n').find(l => l.startsWith('Confession-')) ||
`Confession-<tag>-<postId>``. -/
def headerLineOf (body : String) (tag ds : List Char) : String :=
  match (splitLines body).find? startsWithConfession with
  | some l => l
  | none => "Confession-" ++ String.mk tag ++ "-" ++ String.mk ds

/-- One hop of the chain walk (`bot.ts` 894–906): run the regex on the
caption-or-text, decode the tag at radix 32 and the post id in decimal, and
succeed only when the user id is not `NaN` and the post id is positive. -/
def tryHeader (b : Body) : Option Header :=
  match execHeader (bodyStr b).data with
  | none => none
  | some (tag, ds) =>
    match parseIntJS (String.mk tag) with
    | none => none
    | some uid =>
      if 0 < digitsToNat ds then
        some ⟨uid, digitsToNat ds, headerLineOf (bodyStr b) tag ds⟩
      else none

/-- The bounded chain walk (`while (cur && depth < 25)`), the chain listed
from the replied-to message upward. -/
def findHeader : List Body → Nat → Option Header
  | [], _ => none
  | b :: rest, depth =>
    if depth < 25 then
      match tryHeader b with
      | some h => some h
      | none => findHeader rest (depth + 1)
    else none

/-- The thread-id fallback (`bot.ts` 922–941): memory cache, then the
persistent `post_user_map`, then the bounded free-text search
(`findUserIdByPostId`, `db.ts` 195–222), each modelled as a lookup oracle. -/
def fallbackResolve (threadId : Nat) (cacheL mapL searchL : Nat → Option Nat) :
    Option (Int × String × Nat) :=
  if 0 < threadId then
    match (cacheL threadId).orElse
        (fun _ => (mapL threadId).orElse (fun _ => searchL threadId)) with
    | some uid =>
      some ((uid : Int),
        "Confession-" ++ encodeB32 uid ++ "-" ++ toString threadId, threadId)
    | none => none
  else none

/-- Resolution of a discussion-chat comment to `(userId, confessionID,
postMsgId)`: authoritative header path first, fallback only when the chain
has no header. -/
def resolveComment (chain : List Body) (threadId : Nat)
    (cacheL mapL searchL : Nat → Option Nat) : Option (Int × String × Nat) :=
  match findHeader chain 0 with
  | some h => some (h.userId, h.header, h.postMsgId)
  | none => fallbackResolve threadId cacheL mapL searchL

lemma findHeader_skip (b : Body) (rest : List Body) (hdr : Header)
    (hb : tryHeader b = some hdr) :
    ∀ (pre : List Body) (d : Nat), (∀ x ∈ pre, tryHeader x = none) →
      d + pre.length < 25 → findHeader (pre ++ b :: rest) d = some hdr := by
  intro pre
  induction pre with
  | nil =>
    intro d _ hd
    simp only [List.nil_append, findHeader, if_pos (by simpa using hd), hb]
  | cons x t ih =>
    intro d hnone hd
    have hx : tryHeader x = none := hnone x (List.mem_cons_self x t)
    have hd' : d < 25 := by simp only [List.length_cons] at hd; omega
    simp only [List.cons_append, findHeader, if_pos hd', hx]
    exact ih (d + 1) (fun y hy => hnone y (List.mem_cons_of_mem _ hy))
      (by simp only [List.length_cons] at hd; omega)

/-- Claim C6. If the reply chain holds, within 25 hops, a message whose
caption-or-text carries a well-formed `Confession-<tag>-<postId>` header
(valid radix-32 tag, positive post id) and no earlier hop yields a header,
resolution succeeds with the user id decoded from the tag, independently of
the cache/map/search oracles (no store lookup); and whenever no header is
found in a chain, resolution is exactly the thread-id fallback. -/
theorem resolver_header_c6 (pre : List Body) (b : Body) (rest : List Body)
    (hdr : Header) (hlen : pre.length < 25)
    (hpre : ∀ x ∈ pre, tryHeader x = none) (hb : tryHeader b = some hdr) :
    findHeader (pre ++ b :: rest) 0 = some hdr ∧
    (∀ tid cacheL mapL searchL, resolveComment (pre ++ b :: rest) tid cacheL mapL searchL
       = some (hdr.userId, hdr.header, hdr.postMsgId)) ∧
    (∃ tag ds, execHeader (bodyStr b).data = some (tag, ds) ∧
       parseIntJS (String.mk tag) = some hdr.userId ∧
       hdr.postMsgId = digitsToNat ds) ∧
    (∀ chain tid cacheL mapL searchL, findHeader chain 0 = none →
       resolveComment chain tid cacheL mapL searchL
         = fallbackResolve tid cacheL mapL searchL) := by
  have hfind : findHeader (pre ++ b :: rest) 0 = some hdr :=
    findHeader_skip b rest hdr hb pre 0 hpre (by omega)
  refine ⟨hfind, fun tid cacheL mapL searchL => ?_, ?_, ?_⟩
  · unfold resolveComment
    rw [hfind]
  · unfold tryHeader at hb
    cases hexec : execHeader (bodyStr b).data with
    | none => rw [hexec] at hb; exact Option.noConfusion hb
    | some r =>
      obtain ⟨tag, ds⟩ := r
      rw [hexec] at hb
      dsimp only at hb
      cases hparse : parseIntJS (String.mk tag) with
      | none => rw [hparse] at hb; exact Option.noConfusion hb
      | some uid =>
        rw [hparse] at hb
        dsimp only at hb
        by_cases hpid : 0 < digitsToNat ds
        · rw [if_pos hpid] at hb
          injection hb with hb'
          exact ⟨tag, ds, rfl, by rw [hparse, ← hb'], by rw [← hb']⟩
        · rw [if_neg hpid] at hb
          exact Option.noConfusion hb
  · intro chain tid cacheL mapL searchL hnone
    unfold resolveComment
    rw [hnone]

/-- Witness for C6: a header at depth 3 of the reply chain (three headerless
hops, then `Confession-ab-42`), resolved with empty oracles. -/
theorem resolver_header_c6_witness :
    findHeader ([⟨none, some "first"⟩, ⟨some "second", none⟩, ⟨none, none⟩] ++
        ⟨none, some "Confession-ab-42\nbody"⟩ :: []) 0
      = some ⟨331, 42, "Confession-ab-42"⟩ ∧
    resolveComment ([⟨none, some "first"⟩, ⟨some "second", none⟩, ⟨none, none⟩] ++
        ⟨none, some "Confession-ab-42\nbody"⟩ :: []) 5
      (fun _ => none) (fun _ => none) (fun _ => none)
      = some (331, "Confession-ab-42", 42) := by
  have h := resolver_header_c6 [⟨none, some "first"⟩, ⟨some "second", none⟩,
    ⟨none, none⟩] ⟨none, some "Confession-ab-42\nbody"⟩ []
    ⟨331, 42, "Confession-ab-42"⟩ (by decide) (by decide) (by decide)
  exact ⟨h.1, h.2.1 5 (fun _ => none) (fun _ => none) (fun _ => none)⟩

/-! ## Moderation decision handlers (`reviewBotMenu`, `bot.ts` 295–549)

Each button handler parses the review message's first line as the encoded
user id and emits a sequence of API calls and store writes, modelled as
`MEff` values in source order. `lookup` stands for `readID`; for a `NaN`
user id the handlers that do call `readID` pass the key `"NaN"`, whose
`Number(...)` is `NaN`, so the store read yields `undefined` and the handler
returns — modelled by binding the decoded id through `lookup`. -/

/-- JS `msg.split("\n")[0]`. -/
def firstLine (s : String) : String := (splitLines s).headD ""

/-- JS `msg.split("\n").slice(1).join('\n')`. -/
def restLines (s : String) : String := String.intercalate "\n" (splitLines s).tail

/-- JS `${userID.toString(Encryption)}` — `"NaN"` when the id is `NaN`. -/
def tagStrOf (o : Option Int) : String :=
  match o with
  | none => "NaN"
  | some i => encodeB32Int i

/-- The rewritten channel-post header
`Confession-<tag>-<postId>\n<message>`. -/
def headerText (tag : String) (postId : Nat) (message : String) : String :=
  "Confession-" ++ tag ++ "-" ++ toString postId ++ "\n" ++ message

/-- The review message a decision button fires on: caption plus attachment
kind for media posts, plain text otherwise. -/
structure ReviewMsg where
  caption : Option String
  attach : Option PayloadKind
  text : String
  deriving DecidableEq

inductive NoteKind
  | broadcastConfirm (tag : String) (postId : Nat)
  | discardSuspected
  | discardReview
  deriving DecidableEq

/-- Outbound effects of a moderation handler, in source order. `notify`'s
recipient is `none` when the decoded id is `NaN`. -/
inductive MEff
  | publish (kind : PayloadKind) (body : String)
  | editHeader (postId : Nat) (body : String)
  | sessionWrite (uid : Int) (d : UserData)
  | rememberPost (postId : Nat) (uid : Int)
  | persistPost (postId : Nat) (uid : Int)
  | notify (uid : Option Int) (note : NoteKind)
  | auditRepost (chat : Int) (kind : PayloadKind) (body : String)
  | pinMsg (chat : Int) (postId : Nat)
  | fanoutSend (chat : Int) (postId : Nat)
  | menuClose
  | deleteMsg
  deriving DecidableEq

/-- JS `confessions: [{id: postLink.message_id}, ...userData.confessions]`. -/
def sessionAppend (ud : UserData) (postId : Nat) : UserData :=
  { ud with confessions := postId :: ud.confessions }

/-- The decoded first-line user id a handler works with:
`parseInt((msg.caption ?? msg.text).split("\n")[0], Encryption)`. -/
def decodedUserId (m : ReviewMsg) : Option Int :=
  parseIntJS (firstLine (m.caption.getD m.text))

/-- Approve, caption branch for audio/voice (`bot.ts` 301–333): guard on
`NaN`, publish, rewrite header, then session append / post-map / confirm. -/
def approveCaption (k : PayloadKind) (msg : String) (postId : Nat)
    (lookup : Int → Option UserData) : List MEff :=
  match parseIntJS (firstLine msg) with
  | none => []
  | some uid =>
    [.publish k msg,
     .editHeader postId (headerText (encodeB32Int uid) postId (restLines msg))] ++
    (match lookup uid with
     | none => []
     | some ud =>
       [.sessionWrite uid (sessionAppend ud postId), .rememberPost postId uid,
        .persistPost postId uid,
        .notify (some uid) (.broadcastConfirm (encodeB32Int uid) postId),
        .menuClose, .deleteMsg])

/-- Approve, photo branch (`bot.ts` 334–355): as the audio branch but the
source repeats the post-map recording three times. -/
def approvePhoto (msg : String) (postId : Nat)
    (lookup : Int → Option UserData) : List MEff :=
  match parseIntJS (firstLine msg) with
  | none => []
  | some uid =>
    [.publish .photo msg,
     .editHeader postId (headerText (encodeB32Int uid) postId (restLines msg))] ++
    (match lookup uid with
     | none => []
     | some ud =>
       [.sessionWrite uid (sessionAppend ud postId), .rememberPost postId uid,
        .persistPost postId uid, .rememberPost postId uid, .persistPost postId uid,
        .rememberPost postId uid, .persistPost postId uid,
        .notify (some uid) (.broadcastConfirm (encodeB32Int uid) postId),
        .menuClose, .deleteMsg])

/-- Approve, text branch (`bot.ts` 356–372): publishes the body without the
tag line. -/
def approveText (txt : String) (postId : Nat)
    (lookup : Int → Option UserData) : List MEff :=
  match parseIntJS (firstLine txt) with
  | none => []
  | some uid =>
    [.publish .text (restLines txt),
     .editHeader postId (headerText (encodeB32Int uid) postId (restLines txt))] ++
    (match lookup uid with
     | none => []
     | some ud =>
       [.sessionWrite uid (sessionAppend ud postId), .rememberPost postId uid,
        .persistPost postId uid,
        .notify (some uid) (.broadcastConfirm (encodeB32Int uid) postId),
        .menuClose, .deleteMsg])

/-- The Approve handler (`bot.ts` 295–373). A caption with neither audio,
voice nor photo returns before parsing. -/
def approveEffects (m : ReviewMsg) (postId : Nat)
    (lookup : Int → Option UserData) : List MEff :=
  match m.caption with
  | some msg =>
    match m.attach with
    | some PayloadKind.audio => approveCaption .audio msg postId lookup
    | some PayloadKind.voice => approveCaption .voice msg postId lookup
    | some PayloadKind.photo => approvePhoto msg postId lookup
    | _ => []
  | none => approveText m.text postId lookup

/-- The pin-and-fan-out tail of a Broadcast branch (`bot.ts` 392–402 etc.):
pin the channel post and send the comment link to every fan-out target. -/
def fanoutBlock (postId : Nat) (groups : Option (List Int)) : List MEff :=
  match groups with
  | none => []
  | some gs =>
    MEff.pinMsg CHANNEL_ID postId ::
      (broadcastTargets gs).map (fun g => MEff.fanoutSend g postId)

/-- Broadcast, audio branch (`bot.ts` 381–404): **no `NaN` guard** — the
channel post and the `Confession-NaN-…` header rewrite happen before the
session read fails on the `"NaN"` key. -/
def broadcastAudio (msg : String) (postId : Nat)
    (lookup : Int → Option UserData) (groups : Option (List Int)) : List MEff :=
  match parseIntJS (firstLine msg) with
  | none =>
    [.publish .audio msg, .editHeader postId (headerText "NaN" postId (restLines msg))]
  | some uid =>
    [.publish .audio msg,
     .editHeader postId (headerText (encodeB32Int uid) postId (restLines msg))] ++
    (match lookup uid with
     | none => []
     | some ud =>
       [.sessionWrite uid (sessionAppend ud postId),
        .notify (some uid) (.broadcastConfirm (encodeB32Int uid) postId),
        .menuClose, .deleteMsg] ++ fanoutBlock postId groups)

/-- Broadcast, voice branch (`bot.ts` 405–429): guarded on `NaN`. -/
def broadcastVoice (msg : String) (postId : Nat)
    (lookup : Int → Option UserData) (groups : Option (List Int)) : List MEff :=
  match parseIntJS (firstLine msg) with
  | none => []
  | some uid =>
    [.publish .voice msg,
     .editHeader postId (headerText (encodeB32Int uid) postId (restLines msg))] ++
    (match lookup uid with
     | none => []
     | some ud =>
       [.sessionWrite uid (sessionAppend ud postId),
        .notify (some uid) (.broadcastConfirm (encodeB32Int uid) postId),
        .menuClose, .deleteMsg] ++ fanoutBlock postId groups)

/-- Broadcast, photo branch (`bot.ts` 430–455): **no `NaN` guard**, like the
audio branch. -/
def broadcastPhoto (msg : String) (postId : Nat)
    (lookup : Int → Option UserData) (groups : Option (List Int)) : List MEff :=
  match parseIntJS (firstLine msg) with
  | none =>
    [.publish .photo msg, .editHeader postId (headerText "NaN" postId (restLines msg))]
  | some uid =>
    [.publish .photo msg,
     .editHeader postId (headerText (encodeB32Int uid) postId (restLines msg))] ++
    (match lookup uid with
     | none => []
     | some ud =>
       [.sessionWrite uid (sessionAppend ud postId),
        .notify (some uid) (.broadcastConfirm (encodeB32Int uid) postId),
        .menuClose, .deleteMsg] ++ fanoutBlock postId groups)

/-- Broadcast, text branch (`bot.ts` 456–482): guarded on `NaN`; also
records the post→user mapping in the memory cache. -/
def broadcastText (txt : String) (postId : Nat)
    (lookup : Int → Option UserData) (groups : Option (List Int)) : List MEff :=
  match parseIntJS (firstLine txt) with
  | none => []
  | some uid =>
    [.publish .text (restLines txt),
     .editHeader postId (headerText (encodeB32Int uid) postId (restLines txt))] ++
    (match lookup uid with
     | none => []
     | some ud =>
       [.sessionWrite uid (sessionAppend ud postId), .rememberPost postId uid,
        .notify (some uid) (.broadcastConfirm (encodeB32Int uid) postId),
        .menuClose, .deleteMsg] ++ fanoutBlock postId groups)

/-- The Broadcast handler (`bot.ts` 374–484). -/
def broadcastEffects (m : ReviewMsg) (postId : Nat)
    (lookup : Int → Option UserData) (groups : Option (List Int)) : List MEff :=
  match m.caption with
  | some msg =>
    match m.attach with
    | some PayloadKind.audio => broadcastAudio msg postId lookup groups
    | some PayloadKind.voice => broadcastVoice msg postId lookup groups
    | some PayloadKind.photo => broadcastPhoto msg postId lookup groups
    | _ => []
  | none => broadcastText m.text postId lookup groups

/-- The Discard handler (`bot.ts` 485–501): **no `NaN` guard** — the discard
notice is sent to the decoded id as-is. -/
def discardEffects (m : ReviewMsg) : List MEff :=
  match m.caption with
  | some msg => [.notify (parseIntJS (firstLine msg)) .discardSuspected, .menuClose]
  | none => [.notify (parseIntJS (firstLine m.text)) .discardReview, .menuClose]

/-- JS `${userID} banned\n` + body: the de-anonymised audit caption. -/
def banCaption (uid : Int) (body : String) : String :=
  toString uid ++ " banned" ++ "\n" ++ body

/-- Ban, caption branch for audio/photo (`bot.ts` 503–532): no syntactic
`NaN` guard, but `readID("NaN")` yields `undefined` and the handler returns
before acting. -/
def banMediaBranch (k : PayloadKind) (msg : String)
    (lookup : Int → Option UserData) : List MEff :=
  match parseIntJS (firstLine msg) with
  | none => []
  | some uid =>
    match lookup uid with
    | none => []
    | some ud =>
      [.sessionWrite uid { ud with isBanned := true },
       .auditRepost REVIEW_ID k (banCaption uid msg),
       .notify (some uid) .discardSuspected, .menuClose]

/-- Ban, text branch (`bot.ts` 533–548). -/
def banTextBranch (txt : String) (lookup : Int → Option UserData) : List MEff :=
  match parseIntJS (firstLine txt) with
  | none => []
  | some uid =>
    match lookup uid with
    | none => []
    | some ud =>
      [.sessionWrite uid { ud with isBanned := true },
       .auditRepost REVIEW_ID .text (banCaption uid (restLines txt)),
       .notify (some uid) .discardSuspected, .menuClose]

/-- The Ban handler (`bot.ts` 503–549): a caption with neither audio nor
photo attached returns without acting. -/
def banEffects (m : ReviewMsg) (lookup : Int → Option UserData) : List MEff :=
  match m.caption with
  | some msg =>
    match m.attach with
    | some PayloadKind.audio => banMediaBranch .audio msg lookup
    | some PayloadKind.photo => banMediaBranch .photo msg lookup
    | _ => []
  | none => banTextBranch m.text lookup

/-- A tag whose parse finds no radix-32 digit at all: after optional
whitespace and sign, the first character is not a valid digit (or the string
ends). This is exactly when `parseInt` yields `NaN`. -/
def noLeadingDigit (cs : List Char) : Bool :=
  match cs with
  | [] => true
  | c :: _ => (digitValB32 c).isNone

def malformedTag (s : String) : Bool :=
  match s.data.dropWhile (fun c => isWS c) with
  | [] => true
  | c :: rest =>
    if c = '-' then noLeadingDigit rest
    else if c = '+' then noLeadingDigit rest
    else (digitValB32 c).isNone

lemma parseDigits_of_noLeadingDigit (cs : List Char) (h : noLeadingDigit cs = true) :
    parseDigitsB32 cs = none := by
  unfold parseDigitsB32
  cases cs with
  | nil => rfl
  | cons c t =>
    unfold noLeadingDigit at h
    rw [List.takeWhile_cons]
    simp only [Option.isNone_iff_eq_none] at h
    simp [h]

/-- Counterexample to C7 as stated: on the malformed tag `!!` the Discard
handler still sends a message — the discard notice addressed to the `NaN`
user id (`bot.ts` 489–490 have no `NaN` guard). -/
theorem nan_guard_c7_counterexample :
    parseIntJS "!!" = none ∧
    discardEffects ⟨some "!!\nhi", some .photo, ""⟩
      = [.notify none .discardSuspected, .menuClose] ∧
    discardEffects ⟨some "!!\nhi", some .photo, ""⟩ ≠ [] := by
  decide

/-- Claim C7, amended. Decoding a malformed tag returns the `NaN` sentinel
(and, being a total function, never throws). The Approve handler (every
branch), the Broadcast handler's voice and text branches, and the Ban
handler take no action on a `NaN` id; the Discard handler and the Broadcast
audio/photo branches lack the guard and do act (see the counterexample). -/
theorem nan_guard_c7_amended :
    (∀ s, malformedTag s = true → parseIntJS s = none) ∧
    (∀ m : ReviewMsg, ∀ postId : Nat, ∀ lookup : Int → Option UserData,
      decodedUserId m = none → approveEffects m postId lookup = []) ∧
    (∀ m : ReviewMsg, ∀ postId : Nat, ∀ lookup : Int → Option UserData,
      ∀ groups : Option (List Int), decodedUserId m = none →
      (m.attach = some PayloadKind.voice ∨ m.caption = none) →
      broadcastEffects m postId lookup groups = []) ∧
    (∀ m : ReviewMsg, ∀ lookup : Int → Option UserData,
      decodedUserId m = none → banEffects m lookup = []) := by
  refine ⟨fun s h => ?_, fun m postId lookup hdec => ?_,
    fun m postId lookup groups hdec hside => ?_, fun m lookup hdec => ?_⟩
  · unfold malformedTag at h
    unfold parseIntJS
    cases hcs : s.data.dropWhile (fun c => isWS c) with
    | nil => rfl
    | cons c rest =>
      rw [hcs] at h
      dsimp only at h ⊢
      by_cases h1 : c = '-'
      · rw [if_pos h1] at h ⊢
        rw [parseDigits_of_noLeadingDigit rest h]
        rfl
      · rw [if_neg h1] at h ⊢
        by_cases h2 : c = '+'
        · rw [if_pos h2] at h ⊢
          rw [parseDigits_of_noLeadingDigit rest h]
          rfl
        · rw [if_neg h2] at h ⊢
          have : noLeadingDigit (c :: rest) = true := by
            unfold noLeadingDigit
            exact h
          rw [parseDigits_of_noLeadingDigit _ this]
          rfl
  · obtain ⟨cap, att, txt⟩ := m
    cases cap with
    | none =>
      simp only [decodedUserId, Option.getD_none] at hdec
      simp [approveEffects, approveText, hdec]
    | some c =>
      simp only [decodedUserId, Option.getD_some] at hdec
      cases att with
      | none => simp [approveEffects]
      | some k =>
        cases k <;>
          simp [approveEffects, approveCaption, approvePhoto, hdec]
  · obtain ⟨cap, att, txt⟩ := m
    cases cap with
    | none =>
      simp only [decodedUserId, Option.getD_none] at hdec
      simp [broadcastEffects, broadcastText, hdec]
    | some c =>
      simp only [decodedUserId, Option.getD_some] at hdec
      rcases hside with hv | hnone
      · simp only at hv
        subst hv
        simp [broadcastEffects, broadcastVoice, hdec]
      · exact Option.noConfusion hnone
  · obtain ⟨cap, att, txt⟩ := m
    cases cap with
    | none =>
      simp only [decodedUserId, Option.getD_none] at hdec
      simp [banEffects, banTextBranch, hdec]
    | some c =>
      simp only [decodedUserId, Option.getD_some] at hdec
      cases att with
      | none => simp [banEffects]
      | some k =>
        cases k <;> simp [banEffects, banMediaBranch, hdec]

/-- Witness for the amended C7 at the malformed tag `zz`: the Approve audio
branch, the Broadcast voice branch and the Ban text branch all take no
action. -/
theorem nan_guard_c7_amended_witness :
    parseIntJS "zz" = none ∧
    approveEffects ⟨some "zz\nbody", some .audio, ""⟩ 9 (fun _ => none) = [] ∧
    broadcastEffects ⟨some "zz\nbody", some .voice, ""⟩ 9 (fun _ => none)
      (some [-5]) = [] ∧
    banEffects ⟨none, none, "zz\nbody"⟩ (fun _ => none) = [] :=
  ⟨nan_guard_c7_amended.1 "zz" (by decide),
   nan_guard_c7_amended.2.1 ⟨some "zz\nbody", some .audio, ""⟩ 9 (fun _ => none)
     (by decide),
   nan_guard_c7_amended.2.2.1 ⟨some "zz\nbody", some .voice, ""⟩ 9 (fun _ => none)
     (some [-5]) (by decide) (Or.inl rfl),
   nan_guard_c7_amended.2.2.2 ⟨none, none, "zz\nbody"⟩ (fun _ => none) (by decide)⟩

end Confession
